import Mathlib

/-!
# Verification of the wt_osc band-limited wavetable oscillator core

A shallow embedding of the `wt_osc` crate (files `wavetable.rs`,
`oscillator.rs`, `voice.rs`, `cluster.rs`, `lib.rs`) together with proofs
about it.

Modelling conventions:

* SIMD vectors are modelled lane-wise: a `Simd<u32, N>` lane is a `Nat`
  (with every wrapping operation written with an explicit `% 2 ^ 32`), a
  `Simd<f32, N>` lane is a `ℚ` (exact arithmetic; the claims settled here
  depend only on sign/structure or on integer arithmetic, never on f32
  rounding), and a mask lane is a `Bool`.
* Where the cluster code addresses per-stereo-pair lanes of a vector
  (`split_stereo_cell`), vector fields are modelled as functions
  `Nat → α` from the stereo lane index to the lane contents.
* `FLOATS_PER_VECTOR` comes from the external `simd_util` crate; it is
  the f32 lane count of the platform vector register, `8` on the primary
  x86-64/AVX target.  The unison table is additionally parametrised over
  this width so the table facts can be checked at every realistic width.
* The smoothing primitives (`LinearSmoother`, `LogSmoother`) and the
  small math helpers (`lerp`, `flp_to_fxp`, `fxp_to_flp`,
  `semitones_to_ratio`) live in the external `simd_util` crate; the spec
  declares them as an assumed utility, and they are modelled from the
  spec's wording where noted.
-/

/-- Width (f32 lane count) of the platform SIMD vector.  Modelled from the
spec: the external `simd_util` crate fixes it per target; `8` on the primary
x86-64/AVX target.  (`assert!(FLOATS_PER_VECTOR >= 2)` in `voice.rs`.) -/
def FLOATS_PER_VECTOR : Nat := 8

/-- Number of stereo voice lanes per vector (external `simd_util` constant:
each stereo pair occupies two adjacent f32 lanes). -/
def STEREO_VOICES_PER_VECTOR : Nat := FLOATS_PER_VECTOR / 2

/-- From `lib.rs`: `const MAX_UNISON: usize = 16`. -/
def MAX_UNISON : Nat := 16

/-- From `lib.rs`: `const NUM_PARAMS: u64 = 9`. -/
def NUM_PARAMS : Nat := 9

/-- External `simd_util` helper: division rounding up
(`enclosing_div(a, b) = ⌈a / b⌉`). -/
def enclosing_div (a b : Nat) : Nat := (a + b - 1) / b

/-- Bit length of a natural number, with structural fuel so the kernel can
evaluate it. -/
def bitLen : Nat → Nat → Nat
  | 0, _ => 0
  | fuel + 1, n => if n = 0 then 0 else bitLen fuel (n / 2) + 1

/-- Rust `u32::leading_zeros`: the number of leading zero bits in the 32-bit
representation of `n` (assumes `n < 2 ^ 32`). -/
def leading_zeros (n : Nat) : Nat := 32 - bitLen 32 n

/-- Modelled from the spec: `simd_util`'s `lerp(a, b, t)` linear
interpolation, `a + (b - a) * t`. -/
def lerp (a b t : ℚ) : ℚ := (b - a) * t + a

/-- Modelled from the spec: `simd_util`'s `fxp_to_flp`, reading a `u32` as a
fixed-point fraction in `[0, 1)` (phase is "a fixed-point unsigned integer
over the full register width"). -/
def fxp_to_flp (n : Nat) : ℚ := (n : ℚ) / 2 ^ 32

/-- Modelled from the spec: `simd_util`'s `flp_to_fxp`, converting a phase
value in `[0, 1)` to a `u32` fixed-point fraction. -/
def flp_to_fxp (x : ℚ) : Nat := Int.toNat ⌊x * 2 ^ 32⌋ % 2 ^ 32

namespace BandLimitedWaveTables

/-- From `wavetable.rs`: `NUM_OCTAVES = 11`, the base-2 log of the table size. -/
def NUM_OCTAVES : Nat := 11

/-- From `wavetable.rs`: `TABLE_SIZE = 1 << NUM_OCTAVES`. -/
def TABLE_SIZE : Nat := 1 <<< NUM_OCTAVES

/-- From `wavetable.rs`: `FRACT_BITS = u32::BITS - NUM_OCTAVES`. -/
def FRACT_BITS : Nat := 32 - NUM_OCTAVES

/-- From `wavetable.rs`: `PHASE_MASK = TABLE_SIZE - 1`. -/
def PHASE_MASK : Nat := TABLE_SIZE - 1

/-- From `wavetable.rs`: `NUM_MIPMAPS = NUM_OCTAVES + 1`. -/
def NUM_MIPMAPS : Nat := NUM_OCTAVES + 1

/-- From `wavetable.rs` `get_resample_data`, one `u32` lane.  Returns the
interpolation fraction and the two flat gather indices.  All `u32`
operations wrap, written with explicit `% 2 ^ 32`. -/
def get_resample_data (phase frame phase_delta : Nat) : ℚ × Nat × Nat :=
  let octaves := min (leading_zeros phase_delta) NUM_OCTAVES
  let fract := fxp_to_flp (phase * 2 ^ NUM_OCTAVES % 2 ^ 32)
  let table_start := (octaves + frame * NUM_MIPMAPS % 2 ^ 32) % 2 ^ 32 * 2 ^ NUM_OCTAVES % 2 ^ 32
  let phase_a := phase / 2 ^ FRACT_BITS
  let phase_b := (phase_a + 1) &&& PHASE_MASK
  (fract, (table_start + phase_a) % 2 ^ 32, (table_start + phase_b) % 2 ^ 32)

/-- From `wavetable.rs` `resample`, one lane: gather the two samples from the flat
table data and linearly interpolate. -/
def resample (data : Nat → ℚ) (phase_delta frame phase : Nat) : ℚ :=
  let r := get_resample_data phase frame phase_delta
  lerp (data r.2.1) (data r.2.2) r.1

/-- From `wavetable.rs` `resample_select`, one lane: as `resample` but an inactive
mask lane substitutes `0` for both gathered samples. -/
def resample_select (data : Nat → ℚ) (phase_delta frame phase : Nat) (mask : Bool) : ℚ :=
  let r := get_resample_data phase frame phase_delta
  lerp (if mask then data r.2.1 else 0) (if mask then data r.2.2 else 0) r.1

/-- Reference mipmap level from the spec:
`min(NUM_OCTAVES, leading_zero_count(phase_delta))`. -/
def refMipmapLevel (phase_delta : Nat) : Nat := min NUM_OCTAVES (leading_zeros phase_delta)

/-- Reference base table offset from the spec:
`(mipmap_level + frame_index * NUM_MIPMAPS) * TABLE_SIZE`. -/
def refTableStart (phase_delta frame : Nat) : Nat :=
  (refMipmapLevel phase_delta + frame * NUM_MIPMAPS) * TABLE_SIZE

end BandLimitedWaveTables

section WaveTableTheorems

open BandLimitedWaveTables

/-- Masking with `PHASE_MASK` is reduction mod `TABLE_SIZE`. -/
theorem and_phase_mask_eq_mod (n : Nat) : n &&& PHASE_MASK = n % TABLE_SIZE := by
  have h1 : PHASE_MASK = 2 ^ 11 - 1 := by decide
  have h2 : TABLE_SIZE = 2 ^ 11 := by decide
  rw [h1, h2, Nat.and_pow_two_sub_one_eq_mod]

/-- The two gather indices of `get_resample_data` are the reference base
offset plus the integer phase index (resp. its successor mod `TABLE_SIZE`),
reduced mod `2 ^ 32`.  Shared index computation. -/
theorem get_resample_data_indices (phase frame phase_delta : Nat) :
    (get_resample_data phase frame phase_delta).2.1 =
      (refTableStart phase_delta frame + phase / 2 ^ FRACT_BITS) % 2 ^ 32 ∧
    (get_resample_data phase frame phase_delta).2.2 =
      (refTableStart phase_delta frame + (phase / 2 ^ FRACT_BITS + 1) % TABLE_SIZE) % 2 ^ 32 := by
  refine ⟨?_, ?_⟩ <;>
  · simp only [get_resample_data, refTableStart, refMipmapLevel, and_phase_mask_eq_mod,
      Nat.min_comm (leading_zeros phase_delta) NUM_OCTAVES]
    generalize min NUM_OCTAVES (leading_zeros phase_delta) = l
    simp only [NUM_MIPMAPS, NUM_OCTAVES, TABLE_SIZE, FRACT_BITS]
    norm_num
    omega

/-- C1: for every `u32` lane of `phase_delta`, `frame` and `phase`, the level
used by `get_resample_data` is `min(NUM_OCTAVES, leading_zeros(phase_delta))`
and both gather indices are the reference base offset
`(level + frame * NUM_MIPMAPS) * TABLE_SIZE` plus the integer phase index
(respectively its successor mod `TABLE_SIZE`), reduced mod `2 ^ 32`. -/
theorem get_resample_data_level_offset (phase frame phase_delta : Nat)
    (hp : phase < 2 ^ 32) (hf : frame < 2 ^ 32) (hd : phase_delta < 2 ^ 32) :
    min (leading_zeros phase_delta) NUM_OCTAVES = refMipmapLevel phase_delta ∧
    (get_resample_data phase frame phase_delta).2.1 =
      (refTableStart phase_delta frame + phase / 2 ^ FRACT_BITS) % 2 ^ 32 ∧
    (get_resample_data phase frame phase_delta).2.2 =
      (refTableStart phase_delta frame + (phase / 2 ^ FRACT_BITS + 1) % TABLE_SIZE) % 2 ^ 32 :=
  ⟨Nat.min_comm _ _, (get_resample_data_indices phase frame phase_delta).1,
    (get_resample_data_indices phase frame phase_delta).2⟩

/-- Witness for C1 at a concrete input lane. -/
theorem get_resample_data_level_offset_witness :
    (2 ^ 21 + 5 : Nat) < 2 ^ 32 ∧ (3 : Nat) < 2 ^ 32 ∧ (2 ^ 25 : Nat) < 2 ^ 32 ∧
    (min (leading_zeros (2 ^ 25)) BandLimitedWaveTables.NUM_OCTAVES =
      refMipmapLevel (2 ^ 25) ∧
    (get_resample_data (2 ^ 21 + 5) 3 (2 ^ 25)).2.1 =
      (refTableStart (2 ^ 25) 3 + (2 ^ 21 + 5) / 2 ^ FRACT_BITS) % 2 ^ 32 ∧
    (get_resample_data (2 ^ 21 + 5) 3 (2 ^ 25)).2.2 =
      (refTableStart (2 ^ 25) 3 + ((2 ^ 21 + 5) / 2 ^ FRACT_BITS + 1) % TABLE_SIZE) % 2 ^ 32) :=
  ⟨by norm_num, by norm_num, by norm_num,
    get_resample_data_level_offset (2 ^ 21 + 5) 3 (2 ^ 25)
      (by norm_num) (by norm_num) (by norm_num)⟩

/-- C2: `resample` splits the fixed-point phase into the top `NUM_OCTAVES`
bits as the integer sample index and the remaining `FRACT_BITS` low bits as a
fraction in `[0, 1)`, reads the selected table at that index and at
`(index + 1) mod TABLE_SIZE`, and returns the linear interpolation of the two
samples by that fraction. -/
theorem resample_is_lerp_of_split_phase (data : Nat → ℚ) (phase frame phase_delta : Nat)
    (hp : phase < 2 ^ 32) :
    0 ≤ ((phase % 2 ^ FRACT_BITS : Nat) : ℚ) / 2 ^ FRACT_BITS ∧
    ((phase % 2 ^ FRACT_BITS : Nat) : ℚ) / 2 ^ FRACT_BITS < 1 ∧
    phase / 2 ^ FRACT_BITS < TABLE_SIZE ∧
    resample data phase_delta frame phase =
      lerp (data ((refTableStart phase_delta frame + phase / 2 ^ FRACT_BITS) % 2 ^ 32))
        (data ((refTableStart phase_delta frame + (phase / 2 ^ FRACT_BITS + 1) % TABLE_SIZE) % 2 ^ 32))
        (((phase % 2 ^ FRACT_BITS : Nat) : ℚ) / 2 ^ FRACT_BITS) := by
  have hfract : fxp_to_flp (phase * 2 ^ NUM_OCTAVES % 2 ^ 32) =
      ((phase % 2 ^ FRACT_BITS : Nat) : ℚ) / 2 ^ FRACT_BITS := by
    have h : phase * 2 ^ NUM_OCTAVES % 2 ^ 32 = phase % 2 ^ FRACT_BITS * 2 ^ NUM_OCTAVES := by
      simp only [NUM_OCTAVES, FRACT_BITS]
      omega
    rw [fxp_to_flp, h]
    push_cast
    rw [div_eq_div_iff (by positivity) (by positivity)]
    simp only [NUM_OCTAVES, FRACT_BITS]
    ring
  refine ⟨by positivity, ?_, ?_, ?_⟩
  · rw [div_lt_one (by positivity)]
    have h : phase % 2 ^ FRACT_BITS < 2 ^ FRACT_BITS := Nat.mod_lt _ (by simp [FRACT_BITS])
    exact_mod_cast h
  · simp only [FRACT_BITS, TABLE_SIZE, NUM_OCTAVES] at hp ⊢
    omega
  · simp only [resample]
    rw [show (get_resample_data phase frame phase_delta).1 =
        fxp_to_flp (phase * 2 ^ NUM_OCTAVES % 2 ^ 32) from rfl, hfract,
      (get_resample_data_indices phase frame phase_delta).1,
      (get_resample_data_indices phase frame phase_delta).2]

/-- Witness for C2 at a concrete lane. -/
theorem resample_is_lerp_of_split_phase_witness :
    (2 ^ 22 + 2 ^ 20 : Nat) < 2 ^ 32 ∧
    (0 ≤ (((2 ^ 22 + 2 ^ 20) % 2 ^ FRACT_BITS : Nat) : ℚ) / 2 ^ FRACT_BITS ∧
    (((2 ^ 22 + 2 ^ 20) % 2 ^ FRACT_BITS : Nat) : ℚ) / 2 ^ FRACT_BITS < 1 ∧
    (2 ^ 22 + 2 ^ 20) / 2 ^ FRACT_BITS < TABLE_SIZE ∧
    resample (fun i => (i : ℚ)) 0 1 (2 ^ 22 + 2 ^ 20) =
      lerp ((((refTableStart 0 1 + (2 ^ 22 + 2 ^ 20) / 2 ^ FRACT_BITS) % 2 ^ 32 : Nat)) : ℚ)
        ((((refTableStart 0 1 + ((2 ^ 22 + 2 ^ 20) / 2 ^ FRACT_BITS + 1) % TABLE_SIZE) % 2 ^ 32 : Nat)) : ℚ)
        ((((2 ^ 22 + 2 ^ 20) % 2 ^ FRACT_BITS : Nat) : ℚ) / 2 ^ FRACT_BITS)) :=
  ⟨by norm_num,
    resample_is_lerp_of_split_phase (fun i => (i : ℚ)) (2 ^ 22 + 2 ^ 20) 1 0 (by norm_num)⟩

end WaveTableTheorems

/-- From `voice.rs` / `lib.rs`: number of SIMD oscillator groups per unison voice,
`enclosing_div(MAX_UNISON, FLOATS_PER_VECTOR)`, parametrised over the vector
width `W`. -/
def NUM_VOICE_OSCILLATORS (W : Nat) : Nat := enclosing_div MAX_UNISON W

/-- From `voice.rs` static `UNISON_DETUNES`, parametrised over the vector width
`W` (the source fixes `W = FLOATS_PER_VECTOR`): `UNISON_DETUNES W i k` is the
flat f32 entry at index `k` of the row for unison count `i`.  The const loop
runs for `i = 2 ..= MAX_UNISON` (rows `0` and `1` stay zero-initialised) and
for each pair index `j` writes `±detune` with
`detune = const_copysign(1 - step * j, sign_mask)`, `step = 2 / (i - 1)`,
where `sign_mask` alternates starting positive, at flat indices
`num_voices - 2j - 1 + offset` and `num_voices - 2j - 2 + offset`; `offset`
pushes all pairs that do not fit in the first `remainder_voices` slots up by
`empty_voices`.  f32 arithmetic is modelled exactly over `ℚ`; the sign
structure (`const_copysign` sets the sign bit, the second entry is the exact
negation) is bit-exact in either reading. -/
def UNISON_DETUNES (W i : Nat) : Nat → ℚ :=
  if i < 2 then fun _ => 0
  else
    let numVoices := i + i % 2
    let remainderVoices := (numVoices - 1) % W + 1
    let emptyVoices := W - remainderVoices
    let step : ℚ := 2 / ((i : ℚ) - 1)
    (List.range (numVoices / 2)).foldl
      (fun (row : Nat → ℚ) (j : Nat) =>
        let detune : ℚ := (if j % 2 = 1 then -1 else 1) * (1 - step * (j : ℚ))
        let offset := if j + remainderVoices / 2 < numVoices / 2 then emptyVoices else 0
        Function.update (Function.update row (numVoices - j * 2 - 1 + offset) detune)
          (numVoices - j * 2 - 2 + offset) (-detune))
      (fun _ => 0)

/-- Which flat indices of a `UNISON_DETUNES` row receive an entry: the same
fold as `UNISON_DETUNES W`, recording written slots instead of values. -/
def UNISON_DETUNES_occupied (W i : Nat) : Nat → Bool :=
  if i < 2 then fun _ => false
  else
    let numVoices := i + i % 2
    let remainderVoices := (numVoices - 1) % W + 1
    let emptyVoices := W - remainderVoices
    (List.range (numVoices / 2)).foldl
      (fun (row : Nat → Bool) (j : Nat) =>
        let offset := if j + remainderVoices / 2 < numVoices / 2 then emptyVoices else 0
        Function.update (Function.update row (numVoices - j * 2 - 1 + offset) true)
          (numVoices - j * 2 - 2 + offset) true)
      (fun _ => false)

/-- Sum of all entries in one row of `UNISON_DETUNES` (the row is
`NUM_VOICE_OSCILLATORS * W` floats long). -/
def detune_row_sum (W i : Nat) : ℚ :=
  ((List.range (NUM_VOICE_OSCILLATORS W * W)).map (UNISON_DETUNES W i)).sum

set_option maxHeartbeats 3200000 in
/-- C4: for every unison count `1 ≤ n ≤ MAX_UNISON` and every realistic SIMD
width, the normalized detunes in row `n` of `UNISON_DETUNES` sum to exactly
`0`: the entries are laid out in symmetric `±` pairs around zero. -/
theorem detune_row_sum_eq_zero (w n : Nat) (hw : w = 2 ∨ w = 4 ∨ w = 8 ∨ w = 16)
    (h1 : 1 ≤ n) (h2 : n ≤ MAX_UNISON) : detune_row_sum w n = 0 := by
  simp only [MAX_UNISON] at h2
  rcases hw with rfl | rfl | rfl | rfl <;> interval_cases n <;>
    simp [detune_row_sum, UNISON_DETUNES, NUM_VOICE_OSCILLATORS, enclosing_div, MAX_UNISON,
      List.range_succ, Function.update]

/-- Witness for C4 at width 8, unison count 7. -/
theorem detune_row_sum_eq_zero_witness :
    ((8 : Nat) = 2 ∨ (8 : Nat) = 4 ∨ (8 : Nat) = 8 ∨ (8 : Nat) = 16) ∧
    1 ≤ 7 ∧ 7 ≤ MAX_UNISON ∧ detune_row_sum 8 7 = 0 :=
  ⟨by norm_num, by norm_num, by decide,
    detune_row_sum_eq_zero 8 7 (by norm_num) (by norm_num) (by decide)⟩

/-- One f32 lane of `simd_util`'s `LinearSmoother`.  Modelled from the spec:
a linear ramp holding a current value and a per-sample increment (the two
fields `value` and `increment` that `cluster.rs` projects). -/
structure LinearSmoother where
  value : ℚ
  increment : ℚ
deriving DecidableEq

/-- Modelled from the spec: snap the smoother to the target value. -/
def LinearSmoother.set_val_instantly (_ : LinearSmoother) (t : ℚ) : LinearSmoother :=
  ⟨t, 0⟩

/-- Modelled from the spec: ramp linearly from the current value so the
target is reached after `1 / inc` samples. -/
def LinearSmoother.set_target (s : LinearSmoother) (t inc : ℚ) : LinearSmoother :=
  ⟨s.value, (t - s.value) * inc⟩

/-- Modelled from the spec: advance the ramp by one sample. -/
def LinearSmoother.tick1 (s : LinearSmoother) : LinearSmoother :=
  ⟨s.value + s.increment, s.increment⟩

/-- Modelled from the spec: advance the ramp by `n` samples' worth. -/
def LinearSmoother.tick (s : LinearSmoother) (n : ℚ) : LinearSmoother :=
  ⟨s.value + s.increment * n, s.increment⟩

/-- One f32 lane of `simd_util`'s `LogSmoother`.  Modelled from the spec: a
log-domain (multiplicative) ramp holding a current value and a per-sample
factor. -/
structure LogSmoother where
  value : ℚ
  factor : ℚ
deriving DecidableEq

/-- Modelled from the spec: snap the smoother to the target value (factor 1:
no further movement). -/
def LogSmoother.set_val_instantly (_ : LogSmoother) (t : ℚ) : LogSmoother :=
  ⟨t, 1⟩

/-- Modelled from the spec: advance the log-domain ramp by one sample. -/
def LogSmoother.tick1 (s : LogSmoother) : LogSmoother :=
  ⟨s.value * s.factor, s.factor⟩

section OscillatorModel

-- `simd_util`'s `semitones_to_ratio` (`x ↦ 2 ^ (x / 12)`) is transcendental,
-- so the lane function is kept abstract; no claim depends on its values.
variable (semitone_factor : ℚ → ℚ)

-- The multiplicative per-tick factor `LogSmoother::set_target` derives from
-- (current value, target, increment-per-sample) is likewise log/exp-domain
-- and kept abstract; no claim depends on its values.
variable (log_target_factor : ℚ → ℚ → ℚ → ℚ)

/-- Modelled from the spec: `LogSmoother::set_target` keeps the current value
and installs the log-domain per-sample factor. -/
def LogSmoother.set_target (s : LogSmoother) (t inc : ℚ) : LogSmoother :=
  ⟨s.value, log_target_factor s.value t inc⟩

/-- From `voice.rs` `VoiceParams` as seen per stereo lane by one voice: the
per-voice scalar parameter values (`splat_slot` broadcasts) plus the global
state consumed by `oscillator.rs` (`starting_phases` per oscillator index and
f32 lane, and the frame count of the active wavetable). -/
structure VoiceParams where
  phase_delta : ℚ
  detune : ℚ
  transpose : ℚ
  random : ℚ
  base_norm_frame : ℚ
  num_voices : Nat
  num_frames : ℚ
  starting_phases_global : Nat → Nat → ℚ

/-- From `oscillator.rs` `OscillatorParams`: a view on `VoiceParams` for the
oscillator (SIMD group) at `index`. -/
structure OscillatorParams where
  index : Nat
  params : VoiceParams

/-- From `oscillator.rs` `OscillatorParams::unison_stack_mult` (constant `1.`). -/
def OscillatorParams.unison_stack_mult (_ : OscillatorParams) : ℚ := 1

/-- From `oscillator.rs` `OscillatorParams::frame_spread` (constant `0.`). -/
def OscillatorParams.frame_spread (_ : OscillatorParams) : ℚ := 0

/-- From `oscillator.rs` `OscillatorParams::starting_phases`, one lane: the global
starting phase of this oscillator's lane scaled by the `random` parameter,
converted to fixed point. -/
def OscillatorParams.starting_phases (op : OscillatorParams) (lane : Nat) : Nat :=
  flp_to_fxp (op.params.starting_phases_global op.index lane * op.params.random)

/-- From `oscillator.rs` `OscillatorParams::get_params`, one f32/u32 lane
(`lane < FLOATS_PER_VECTOR`): returns (phase_delta, frame, mask).  u32
subtraction wraps (`% 2 ^ 32`); the `<< max_float_bit_index` sign trick
keeps exactly bit 0 of `voice_indices ^ voice_pair_indices` as the f32 sign
flip; the f32 clamp constants `0.00001` / `0.99999` are modelled by the
exact decimals (their f32 roundings also lie strictly inside `(0, 1)`,
which is all any proof uses). -/
def OscillatorParams.get_params (op : OscillatorParams) (lane : Nat) : ℚ × ℚ × Bool :=
  let half_f : ℚ := 1 / 2
  let last_voice_pair_idx : Nat := max (((MAX_UNISON + (MAX_UNISON &&& 1)) >>> 1) - 1) 1
  let last_voice_pair_idx_f : ℚ := (last_voice_pair_idx : ℚ)
  let counting : Nat := lane
  let counting_by2 : Nat := lane >>> 1
  let v_osc_index : Nat := op.index * FLOATS_PER_VECTOR
  let voice_index : Nat := v_osc_index + counting
  let voice_pair_index : Nat := v_osc_index + counting_by2
  let pair_detunes : Nat := (last_voice_pair_idx + 2 ^ 32 - voice_pair_index % 2 ^ 32) % 2 ^ 32
  let sign_mask : Bool := decide ((voice_index ^^^ voice_pair_index) % 2 = 1)
  let num_voices : Nat := op.params.num_voices
  let half_num_voices_f : ℚ := (num_voices : ℚ) * half_f
  let abs_norm_detunes : ℚ := (half_num_voices_f - (pair_detunes : ℚ)) / half_num_voices_f
  let norm_detunes : ℚ := if sign_mask then -abs_norm_detunes else abs_norm_detunes
  let base_phase_delta : ℚ := op.params.phase_delta * op.unison_stack_mult
  let detune_semitones : ℚ := op.params.detune * norm_detunes + op.params.transpose
  let detune_ratio : ℚ := semitone_factor detune_semitones
  let phase_delta : ℚ := base_phase_delta * detune_ratio
  let num_osc_voices : Nat := num_voices + (num_voices &&& 1)
  let mask : Bool := decide (num_osc_voices > voice_index)
  let norm_voice_spread : ℚ := (voice_pair_index : ℚ) / last_voice_pair_idx_f
  let norm_frame : ℚ := norm_voice_spread * op.frame_spread + op.params.base_norm_frame
  let norm_frame_clamped : ℚ := min (max norm_frame (1 / 100000)) (99999 / 100000)
  let frame : ℚ := norm_frame_clamped * op.params.num_frames
  (phase_delta, frame, mask)

/-- From `oscillator.rs` `Oscillator`, one f32/u32 lane: log-smoothed phase
increment, fixed-point phase, linearly smoothed frame, active-lane mask
bit. -/
structure Oscillator where
  phase_delta : LogSmoother
  phase : Nat
  frame : LinearSmoother
  active_voices_mask : Bool

/-- Struct `Oscillator` is `#[derive(Default)]`: phase 0, smoothers zeroed,
mask clear. -/
def Oscillator.default : Oscillator :=
  ⟨⟨0, 0⟩, 0, ⟨0, 0⟩, false⟩

/-- From `oscillator.rs` `Oscillator::set_phase`. -/
def Oscillator.set_phase (o : Oscillator) (phase : Nat) : Oscillator :=
  { o with phase := phase }

/-- From `oscillator.rs` `Oscillator::reset`. -/
def Oscillator.reset (o : Oscillator) : Oscillator :=
  o.set_phase 0

/-- From `oscillator.rs` `Oscillator::update_mask_and_phases`, one lane: a lane
whose mask bit changed (XOR) takes the starting phase; the mask is stored. -/
def Oscillator.update_mask_and_phases (o : Oscillator) (starting_phase : Nat) (mask : Bool) :
    Oscillator :=
  let newly_activated := xor o.active_voices_mask mask
  { o with phase := if newly_activated then starting_phase else o.phase,
           active_voices_mask := mask }

/-- From `oscillator.rs` `Oscillator::set_params_instantly`, one lane. -/
def Oscillator.set_params_instantly (o : Oscillator) (p : OscillatorParams) (lane : Nat) :
    Oscillator :=
  let r := p.get_params semitone_factor lane
  let o := o.update_mask_and_phases (p.starting_phases lane) r.2.2
  { o with phase_delta := o.phase_delta.set_val_instantly r.1,
           frame := o.frame.set_val_instantly r.2.1 }

/-- From `oscillator.rs` `Oscillator::set_params_smoothed`, one lane. -/
def Oscillator.set_params_smoothed (o : Oscillator) (p : OscillatorParams) (inc : ℚ)
    (lane : Nat) : Oscillator :=
  let r := p.get_params semitone_factor lane
  let o := o.update_mask_and_phases (p.starting_phases lane) r.2.2
  { o with phase_delta := o.phase_delta.set_target log_target_factor r.1 inc,
           frame := o.frame.set_target r.2.1 inc }

/-- From `oscillator.rs` `Oscillator::get_frame_index`: the smoothed frame value
converted with `to_int_unchecked` (truncation; well-defined exactly when the
value is in the target integer range, which is what C6 establishes). -/
def Oscillator.get_frame_index (o : Oscillator) : ℤ :=
  ⌊o.frame.value⌋

/-- From `oscillator.rs` `Oscillator::advance_and_resample`, one lane: tick the
phase-increment smoother, convert it to fixed point, accumulate the phase
mod `2 ^ 32`, and resample the table at the new phase (masked). -/
def Oscillator.advance_and_resample (o : Oscillator) (data : Nat → ℚ) : Oscillator × ℚ :=
  let pd := o.phase_delta.tick1
  let phase_delta := flp_to_fxp pd.value
  let phase := (o.phase + phase_delta) % 2 ^ 32
  let o2 : Oscillator := { o with phase_delta := pd, phase := phase }
  (o2, BandLimitedWaveTables.resample_select data phase_delta o2.get_frame_index.toNat phase
    o2.active_voices_mask)

/-- Iterated advance: `m` successive `advance_and_resample` steps (state
part). -/
def Oscillator.advance_n (o : Oscillator) (data : Nat → ℚ) : Nat → Oscillator
  | 0 => o
  | m + 1 => ((o.advance_n data m).advance_and_resample data).1

end OscillatorModel

/-- One event in an oscillator lane's life: a parameter snap, a smoothed
parameter set, or a per-sample advance. -/
inductive OscOp where
  | set_instantly (p : OscillatorParams)
  | set_smoothed (p : OscillatorParams) (inc : ℚ)
  | advance (data : Nat → ℚ)

/-- The op's parameters (if any) carry `num_frames = nf`. -/
def OscOp.num_frames_eq (nf : ℚ) : OscOp → Prop
  | .set_instantly p => p.params.num_frames = nf
  | .set_smoothed p _ => p.params.num_frames = nf
  | .advance _ => True

section OscillatorTheorems

variable (semitone_factor : ℚ → ℚ)
variable (log_target_factor : ℚ → ℚ → ℚ → ℚ)

/-- Apply one event to an oscillator lane. -/
def Oscillator.apply_op (o : Oscillator) (lane : Nat) : OscOp → Oscillator
  | .set_instantly p => o.set_params_instantly semitone_factor p lane
  | .set_smoothed p inc => o.set_params_smoothed semitone_factor log_target_factor p inc lane
  | .advance data => (o.advance_and_resample data).1

/-- Apply a sequence of events to an oscillator lane. -/
def Oscillator.apply_ops (o : Oscillator) (lane : Nat) (ops : List OscOp) : Oscillator :=
  ops.foldl (fun s op => s.apply_op semitone_factor log_target_factor lane op) o

/-- The frame target produced by `get_params` lies in `[0, num_frames)`:
the normalized frame is clamped into `[0.00001, 0.99999]` before scaling. -/
theorem get_params_frame_bounds (p : OscillatorParams) (lane : Nat) (nf : ℚ)
    (hnf : 1 ≤ nf) (hf : p.params.num_frames = nf) :
    0 ≤ (p.get_params semitone_factor lane).2.1 ∧
      (p.get_params semitone_factor lane).2.1 < nf := by
  have h0 : (0 : ℚ) < nf := lt_of_lt_of_le one_pos hnf
  simp only [OscillatorParams.get_params, hf]
  set x := ((p.index * FLOATS_PER_VECTOR + lane >>> 1 : Nat) : ℚ) /
      ((max (((MAX_UNISON + (MAX_UNISON &&& 1)) >>> 1) - 1) 1 : Nat) : ℚ) *
      OscillatorParams.frame_spread p + p.params.base_norm_frame with hx
  have hc1 : (1 / 100000 : ℚ) ≤ min (max x (1 / 100000)) (99999 / 100000) :=
    le_min (le_max_right _ _) (by norm_num)
  have hc2 : min (max x (1 / 100000)) (99999 / 100000) ≤ 99999 / 100000 :=
    min_le_right _ _
  constructor
  · nlinarith
  · nlinarith

/-- Frame-value invariant preservation by one event. -/
theorem apply_op_frame_invariant (o : Oscillator) (lane : Nat) (op : OscOp) (nf : ℚ)
    (hnf : 1 ≤ nf) (hop : op.num_frames_eq nf)
    (h0 : 0 ≤ o.frame.value) (h1 : o.frame.value < nf) :
    0 ≤ (o.apply_op semitone_factor log_target_factor lane op).frame.value ∧
      (o.apply_op semitone_factor log_target_factor lane op).frame.value < nf := by
  cases op with
  | set_instantly p =>
      have hb := get_params_frame_bounds semitone_factor p lane nf hnf hop
      simpa [Oscillator.apply_op, Oscillator.set_params_instantly,
        Oscillator.update_mask_and_phases, LinearSmoother.set_val_instantly] using hb
  | set_smoothed p inc =>
      simpa [Oscillator.apply_op, Oscillator.set_params_smoothed,
        Oscillator.update_mask_and_phases, LinearSmoother.set_target] using ⟨h0, h1⟩
  | advance data =>
      simpa [Oscillator.apply_op, Oscillator.advance_and_resample] using ⟨h0, h1⟩

/-- C6: starting from the default oscillator state, after any sequence of
`set_params_instantly` / `set_params_smoothed` calls whose parameters carry
the same frame count `num_frames ≥ 1` (the normalized frame being clamped
inside `get_params`) and any per-sample advances, the smoothed frame value
stays in `[0, num_frames)`; hence the integer frame index of
`get_frame_index` is nonnegative and strictly below `num_frames`, and the
float-to-int conversion there is in range. -/
theorem frame_index_in_range (lane : Nat) (nf : ℚ) (ops : List OscOp)
    (hnf : 1 ≤ nf) (hops : ∀ op ∈ ops, op.num_frames_eq nf) :
    0 ≤ (Oscillator.default.apply_ops semitone_factor log_target_factor lane ops).frame.value ∧
    (Oscillator.default.apply_ops semitone_factor log_target_factor lane ops).frame.value < nf ∧
    0 ≤ (Oscillator.default.apply_ops semitone_factor log_target_factor lane ops).get_frame_index ∧
    ((Oscillator.default.apply_ops semitone_factor log_target_factor lane ops).get_frame_index : ℚ)
      < nf := by
  have main : ∀ (l : List OscOp) (o : Oscillator), (∀ op ∈ l, op.num_frames_eq nf) →
      0 ≤ o.frame.value → o.frame.value < nf →
      0 ≤ (o.apply_ops semitone_factor log_target_factor lane l).frame.value ∧
        (o.apply_ops semitone_factor log_target_factor lane l).frame.value < nf := by
    intro l
    induction l with
    | nil => intro o _ h0 h1; exact ⟨h0, h1⟩
    | cons op rest ih =>
        intro o hl h0 h1
        have hstep := apply_op_frame_invariant semitone_factor log_target_factor o lane op nf hnf
          (hl op (List.mem_cons_self op rest)) h0 h1
        have := ih (o.apply_op semitone_factor log_target_factor lane op)
          (fun x hx => hl x (List.mem_cons_of_mem op hx)) hstep.1 hstep.2
        simpa [Oscillator.apply_ops, List.foldl_cons] using this
  have hd0 : (0 : ℚ) ≤ Oscillator.default.frame.value := le_refl 0
  have hd1 : Oscillator.default.frame.value < nf := lt_of_lt_of_le one_pos hnf
  obtain ⟨hv0, hv1⟩ := main ops Oscillator.default hops hd0 hd1
  refine ⟨hv0, hv1, ?_, ?_⟩
  · exact Int.le_floor.mpr (by exact_mod_cast hv0)
  · exact lt_of_le_of_lt (Int.floor_le _) hv1

/-- Witness for C6 with one instant parameter set on a one-frame table. -/
theorem frame_index_in_range_witness :
    (1 : ℚ) ≤ 1 ∧
    (∀ op ∈ [OscOp.set_instantly ⟨0, ⟨0, 0, 0, 0, 0, 1, 1, fun _ _ => 0⟩⟩],
      op.num_frames_eq 1) ∧
    (0 ≤ ((Oscillator.default.apply_ops (fun _ => 1) (fun _ _ _ => 1) 0
        [OscOp.set_instantly ⟨0, ⟨0, 0, 0, 0, 0, 1, 1, fun _ _ => 0⟩⟩]).frame.value) ∧
    (Oscillator.default.apply_ops (fun _ => 1) (fun _ _ _ => 1) 0
        [OscOp.set_instantly ⟨0, ⟨0, 0, 0, 0, 0, 1, 1, fun _ _ => 0⟩⟩]).frame.value < 1 ∧
    0 ≤ (Oscillator.default.apply_ops (fun _ => 1) (fun _ _ _ => 1) 0
        [OscOp.set_instantly ⟨0, ⟨0, 0, 0, 0, 0, 1, 1, fun _ _ => 0⟩⟩]).get_frame_index ∧
    ((Oscillator.default.apply_ops (fun _ => 1) (fun _ _ _ => 1) 0
        [OscOp.set_instantly ⟨0, ⟨0, 0, 0, 0, 0, 1, 1, fun _ _ => 0⟩⟩]).get_frame_index : ℚ)
      < 1) :=
  ⟨le_refl 1, by intro op hop; simp at hop; subst hop; rfl,
    frame_index_in_range (fun _ => 1) (fun _ _ _ => 1) 0 1
      [OscOp.set_instantly ⟨0, ⟨0, 0, 0, 0, 0, 1, 1, fun _ _ => 0⟩⟩]
      (le_refl 1) (by intro op hop; simp at hop; subst hop; rfl)⟩

/-- C7: on `set_params_instantly` / `set_params_smoothed`, a lane whose mask
bit flips from off to on takes the (possibly randomized) starting phase for
that lane, and a lane whose mask bit is unchanged keeps its current phase. -/
theorem mask_flip_resets_phase (o : Oscillator) (p : OscillatorParams) (inc : ℚ)
    (lane : Nat) :
    (o.active_voices_mask = false → (p.get_params semitone_factor lane).2.2 = true →
      (o.set_params_instantly semitone_factor p lane).phase = p.starting_phases lane ∧
      (o.set_params_smoothed semitone_factor log_target_factor p inc lane).phase =
        p.starting_phases lane) ∧
    (o.active_voices_mask = (p.get_params semitone_factor lane).2.2 →
      (o.set_params_instantly semitone_factor p lane).phase = o.phase ∧
      (o.set_params_smoothed semitone_factor log_target_factor p inc lane).phase = o.phase) := by
  constructor
  · intro hoff hon
    constructor <;>
      simp [Oscillator.set_params_instantly, Oscillator.set_params_smoothed,
        Oscillator.update_mask_and_phases, hoff, hon]
  · intro heq
    constructor <;>
      simp [Oscillator.set_params_instantly, Oscillator.set_params_smoothed,
        Oscillator.update_mask_and_phases, ← heq]

/-- Witness for C7: a default (inactive) lane activated by a one-voice mask
takes the starting phase. -/
theorem mask_flip_resets_phase_witness :
    Oscillator.default.active_voices_mask = false ∧
    ((⟨0, ⟨0, 0, 0, 0, 0, 1, 1, fun _ _ => 0⟩⟩ :
        OscillatorParams).get_params (fun _ => 1) 0).2.2 = true ∧
    (Oscillator.default.set_params_instantly (fun _ => 1)
        ⟨0, ⟨0, 0, 0, 0, 0, 1, 1, fun _ _ => 0⟩⟩ 0).phase =
      OscillatorParams.starting_phases ⟨0, ⟨0, 0, 0, 0, 0, 1, 1, fun _ _ => 0⟩⟩ 0 ∧
    (Oscillator.default.set_params_smoothed (fun _ => 1) (fun _ _ _ => 1)
        ⟨0, ⟨0, 0, 0, 0, 0, 1, 1, fun _ _ => 0⟩⟩ (1 / 2) 0).phase =
      OscillatorParams.starting_phases ⟨0, ⟨0, 0, 0, 0, 0, 1, 1, fun _ _ => 0⟩⟩ 0 :=
  ⟨rfl, rfl,
    (mask_flip_resets_phase (fun _ => 1) (fun _ _ _ => 1) Oscillator.default
      ⟨0, ⟨0, 0, 0, 0, 0, 1, 1, fun _ _ => 0⟩⟩ (1 / 2) 0).1 rfl rfl⟩

/-- A log smoother whose factor is 1 is a fixed point of `tick1`. -/
theorem LogSmoother.tick1_of_factor_one (s : LogSmoother) (h : s.factor = 1) :
    s.tick1 = s := by
  cases s with
  | mk v f =>
      simp only [LogSmoother.factor] at h
      simp [LogSmoother.tick1, h]

/-- With the log smoother's factor pinned at 1, advancing preserves the
smoother state and adds `flp_to_fxp value` to the phase mod `2 ^ 32` each
step. -/
theorem advance_n_phase (o : Oscillator) (data : Nat → ℚ) (m : Nat)
    (hfac : o.phase_delta.factor = 1) (hp : o.phase < 2 ^ 32) :
    (o.advance_n data m).phase_delta = o.phase_delta ∧
    (o.advance_n data m).phase =
      (o.phase + m * flp_to_fxp o.phase_delta.value) % 2 ^ 32 := by
  induction m with
  | zero => exact ⟨rfl, by simp only [Oscillator.advance_n]; omega⟩
  | succ m ih =>
      obtain ⟨ihd, ihp⟩ := ih
      have htick : (o.advance_n data m).phase_delta.tick1 = o.phase_delta := by
        rw [ihd]; exact LogSmoother.tick1_of_factor_one o.phase_delta hfac
      constructor
      · show ((o.advance_n data m).advance_and_resample data).1.phase_delta = o.phase_delta
        simp only [Oscillator.advance_and_resample]
        exact htick
      · show ((o.advance_n data m).advance_and_resample data).1.phase = _
        simp only [Oscillator.advance_and_resample]
        rw [htick, ihp]
        generalize flp_to_fxp o.phase_delta.value = k
        rw [Nat.succ_mul]
        omega

/-- C8: phase accumulation is exact mod `2 ^ 32`: if the smoothed phase
increment sits at a fixed nonzero fixed-point value `k` (log-smoother factor
1), then `m` `advance_and_resample` steps add exactly `m * k mod 2 ^ 32` to
the phase, and whenever `m * k ≡ 0 (mod 2 ^ 32)` the phase returns exactly
to its starting value — no drift. -/
theorem phase_accumulation_exact (o : Oscillator) (data : Nat → ℚ) (k m : Nat)
    (hfac : o.phase_delta.factor = 1) (hk : flp_to_fxp o.phase_delta.value = k)
    (hk0 : 0 < k) (hp : o.phase < 2 ^ 32) :
    (o.advance_n data m).phase = (o.phase + m * k) % 2 ^ 32 ∧
    (m * k % 2 ^ 32 = 0 → (o.advance_n data m).phase = o.phase) := by
  obtain ⟨-, h⟩ := advance_n_phase o data m hfac hp
  rw [hk] at h
  refine ⟨h, fun hz => ?_⟩
  rw [h]
  generalize m * k = t at hz ⊢
  omega

/-- Witness for C8: increment one half-cycle (`2 ^ 31`), four steps return
the phase to its start. -/
theorem phase_accumulation_exact_witness :
    (⟨⟨1 / 2, 1⟩, 123, ⟨0, 0⟩, false⟩ : Oscillator).phase_delta.factor = 1 ∧
    flp_to_fxp (⟨⟨1 / 2, 1⟩, 123, ⟨0, 0⟩, false⟩ : Oscillator).phase_delta.value = 2 ^ 31 ∧
    (0 : Nat) < 2 ^ 31 ∧
    (⟨⟨1 / 2, 1⟩, 123, ⟨0, 0⟩, false⟩ : Oscillator).phase < 2 ^ 32 ∧
    ((Oscillator.advance_n ⟨⟨1 / 2, 1⟩, 123, ⟨0, 0⟩, false⟩ (fun _ => 0) 4).phase =
      (123 + 4 * 2 ^ 31) % 2 ^ 32 ∧
    (4 * 2 ^ 31 % 2 ^ 32 = 0 →
      (Oscillator.advance_n ⟨⟨1 / 2, 1⟩, 123, ⟨0, 0⟩, false⟩ (fun _ => 0) 4).phase = 123)) :=
  ⟨rfl, by norm_num [flp_to_fxp]; decide, by norm_num, by norm_num,
    phase_accumulation_exact ⟨⟨1 / 2, 1⟩, 123, ⟨0, 0⟩, false⟩ (fun _ => 0) (2 ^ 31) 4
      rfl (by norm_num [flp_to_fxp]; decide) (by norm_num) (by norm_num)⟩

end OscillatorTheorems

/-- From `voice.rs` `WTOscVoice`: the per-note stack of SIMD oscillator groups
(modelled lane-wise: `oscs g` is group `g`, a function would index lanes via
the `Oscillator` lane model), the active group count, and the mask of valid
lanes in the partially filled group. -/
structure WTOscVoice where
  oscs : Nat → Oscillator
  num_oscs : Nat
  remainder_mask : Nat → Bool

/-- From `voice.rs` `impl Default for WTOscVoice`: default oscillators, one
group, empty mask. -/
def WTOscVoice.default : WTOscVoice :=
  ⟨fun _ => Oscillator.default, 1, fun _ => false⟩

/-- From `voice.rs` `WTOscVoice::set_num_unison_voices`: round the unison count up
to even, store the enclosing group count, build the remainder mask marking
lanes `i < rem` with `rem = (n - 1) % FLOATS_PER_VECTOR + 1`, and hand back
the first `num_vectors` groups of `UNISON_DETUNES[num]` (the slice is
modelled by its group count; the values are read from `UNISON_DETUNES`). -/
def WTOscVoice.set_num_unison_voices (v : WTOscVoice) (num : Nat) : WTOscVoice × Nat :=
  let n := num + (num &&& 1)
  let num_vectors := enclosing_div n FLOATS_PER_VECTOR
  let rem := (n - 1) % FLOATS_PER_VECTOR + 1
  ({ v with num_oscs := num_vectors, remainder_mask := fun i => decide (i < rem) }, num_vectors)

/-- C5 counterexample, at unison count `n = 10` (voice count 10, two
oscillator groups of width `FLOATS_PER_VECTOR = 8`): the construction puts
the partial group FIRST, not last.  The last group (group 1) is completely
full — its lane 0 and lane 2 hold nonzero detunes although the claim wants
the six empty lanes pushed to the front of the last group — and its occupied
lanes are not the remainder-mask lanes (`rem = 2`, so the mask marks only
lanes 0 and 1: lane 2 of the last group holds a nonzero detune yet is
unmasked). -/
theorem unison_detunes_last_group_not_right_aligned :
    (WTOscVoice.default.set_num_unison_voices 10).2 = 2 ∧
    UNISON_DETUNES FLOATS_PER_VECTOR 10 (1 * FLOATS_PER_VECTOR + 0) ≠ 0 ∧
    (WTOscVoice.default.set_num_unison_voices 10).1.remainder_mask 2 = false ∧
    UNISON_DETUNES FLOATS_PER_VECTOR 10 (1 * FLOATS_PER_VECTOR + 2) ≠ 0 := by
  refine ⟨rfl, ?_, rfl, ?_⟩ <;>
  · simp [UNISON_DETUNES, FLOATS_PER_VECTOR, List.range_succ, Function.update]
    norm_num

/-- C5 amended: for every unison count `2 ≤ n ≤ MAX_UNISON` (width 8), the
detune entries of the partial oscillator group — which is the FIRST group,
not the last — are left-aligned: they occupy exactly the lanes marked active
by the remainder mask of `set_num_unison_voices` (lanes `i < rem`, the empty
lanes sitting at the back of that group), so active lanes are contiguous and
maskable; every further group of the row's slice is completely full. -/
theorem unison_detunes_first_group_matches_mask :
    ∀ n < MAX_UNISON + 1, 2 ≤ n →
      (∀ l < FLOATS_PER_VECTOR,
        UNISON_DETUNES_occupied FLOATS_PER_VECTOR n l =
          (WTOscVoice.default.set_num_unison_voices n).1.remainder_mask l) ∧
      (∀ g < (WTOscVoice.default.set_num_unison_voices n).2, 1 ≤ g →
        ∀ l < FLOATS_PER_VECTOR,
          UNISON_DETUNES_occupied FLOATS_PER_VECTOR n (g * FLOATS_PER_VECTOR + l) = true) := by
  decide

/-- Witness for the amended C5 at `n = 10`: lane 1 of the first group is
occupied and masked, and lane 0 of the (full) second group is occupied. -/
theorem unison_detunes_first_group_matches_mask_witness :
    (10 : Nat) < MAX_UNISON + 1 ∧ (2 : Nat) ≤ 10 ∧ (1 : Nat) < FLOATS_PER_VECTOR ∧
    UNISON_DETUNES_occupied FLOATS_PER_VECTOR 10 1 =
      (WTOscVoice.default.set_num_unison_voices 10).1.remainder_mask 1 ∧
    ((1 : Nat) < (WTOscVoice.default.set_num_unison_voices 10).2 ∧ (1 : Nat) ≤ 1 ∧
      (0 : Nat) < FLOATS_PER_VECTOR ∧
      UNISON_DETUNES_occupied FLOATS_PER_VECTOR 10 (1 * FLOATS_PER_VECTOR + 0) = true) :=
  ⟨by decide, by decide, by decide,
    (unison_detunes_first_group_matches_mask 10 (by decide) (by decide)).1 1 (by decide),
    by decide, by decide, by decide,
    (unison_detunes_first_group_matches_mask 10 (by decide) (by decide)).2 1 (by decide)
      (by decide) 0 (by decide)⟩

/-- The external `LinearSmoother` at full vector width, viewed — as
`cluster.rs`'s `move_state` views it through `split_stereo_cell` — as a
function from the stereo lane index to that lane's `(left, right)` pair, for
both of its fields `value` and `increment`. -/
structure LinearSmootherV where
  value : Nat → ℚ × ℚ
  increment : Nat → ℚ × ℚ

/-- Modelled from the spec: snap the vector smoother to the target. -/
def LinearSmootherV.set_val_instantly (_ : LinearSmootherV) (t : Nat → ℚ × ℚ) :
    LinearSmootherV :=
  ⟨t, fun _ => (0, 0)⟩

/-- All-zero vector smoother (`LinearSmoother: Default`). -/
def LinearSmootherV.default : LinearSmootherV :=
  ⟨fun _ => (0, 0), fun _ => (0, 0)⟩

/-- From `cluster.rs` `set_sample`: copy the stereo pair at lane `i` of `input`
into lane `j` of `output`, leaving every other lane of `output` unchanged. -/
def set_sample {α : Type} (input : Nat → α) (i : Nat) (output : Nat → α) (j : Nat) :
    Nat → α :=
  Function.update output j (input i)

/-- From `cluster.rs` `WTOscClusterParams`: the eight per-cluster smoothed
parameter vectors plus the raw `num_voices` and `phase_delta` vectors, all
viewed per stereo lane. -/
structure WTOscClusterParams where
  detune : LinearSmootherV
  detune_range : LinearSmootherV
  transpose : LinearSmootherV
  norm_frame : LinearSmootherV
  random : LinearSmootherV
  level : LinearSmootherV
  stereo : LinearSmootherV
  norm_pan : LinearSmootherV
  num_voices : Nat → Nat × Nat
  phase_delta : Nat → ℚ × ℚ

/-- From `cluster.rs`: `const DETUNE_RANGE: f32 = 96.`. -/
def WTOscClusterParams.DETUNE_RANGE : ℚ := 96

/-- Default `WTOscClusterParams`: everything zeroed. -/
def WTOscClusterParams.default : WTOscClusterParams :=
  ⟨.default, .default, .default, .default, .default, .default, .default, .default,
    fun _ => (0, 0), fun _ => (0, 0)⟩

/-- From `cluster.rs` `WTOscClusterParams::move_state`: for each of the eight
smoothers, copy lane `from`'s `value` and `increment` stereo pairs of `self`
into lane `to` of `other`, then copy the `phase_delta` and `num_voices`
lanes the same way.  Each `set_sample` reads lane `i` of the source and
writes only lane `j` of the destination, so the sequential `Cell` semantics
of the source (which also covers `self` and `other` aliasing) is exactly
this record. -/
def WTOscClusterParams.move_state (self : WTOscClusterParams) (i : Nat)
    (other : WTOscClusterParams) (j : Nat) : WTOscClusterParams where
  detune := ⟨set_sample self.detune.value i other.detune.value j,
    set_sample self.detune.increment i other.detune.increment j⟩
  detune_range := ⟨set_sample self.detune_range.value i other.detune_range.value j,
    set_sample self.detune_range.increment i other.detune_range.increment j⟩
  transpose := ⟨set_sample self.transpose.value i other.transpose.value j,
    set_sample self.transpose.increment i other.transpose.increment j⟩
  norm_frame := ⟨set_sample self.norm_frame.value i other.norm_frame.value j,
    set_sample self.norm_frame.increment i other.norm_frame.increment j⟩
  random := ⟨set_sample self.random.value i other.random.value j,
    set_sample self.random.increment i other.random.increment j⟩
  level := ⟨set_sample self.level.value i other.level.value j,
    set_sample self.level.increment i other.level.increment j⟩
  stereo := ⟨set_sample self.stereo.value i other.stereo.value j,
    set_sample self.stereo.increment i other.stereo.increment j⟩
  norm_pan := ⟨set_sample self.norm_pan.value i other.norm_pan.value j,
    set_sample self.norm_pan.increment i other.norm_pan.increment j⟩
  num_voices := set_sample self.num_voices i other.num_voices j
  phase_delta := set_sample self.phase_delta i other.phase_delta j

/-- Saturating `f32 → u32` cast (Rust `Simd::cast` semantics; negative
values clamp to 0, large values to `u32::MAX`). -/
def u32_cast (x : ℚ) : Nat := min (Int.toNat ⌊x⌋) (2 ^ 32 - 1)

/-- From `cluster.rs` `WTOscClusterParams::set_param`: route a parameter id to
its smoother (instant set); id 9 decodes the unison voice count
`norm_val * 15.98 + 1` (the f32 literal `15.98`, modelled exactly) cast to
`u32`; any other id — including 0 — is a no-op. -/
def WTOscClusterParams.set_param (p : WTOscClusterParams) (param_id : Nat)
    (norm_val : Nat → ℚ × ℚ) : WTOscClusterParams :=
  match param_id with
  | 1 => { p with detune := p.detune.set_val_instantly norm_val }
  | 2 =>
    let ranged := fun l => (((norm_val l).1 - 1 / 2) * DETUNE_RANGE,
      ((norm_val l).2 - 1 / 2) * DETUNE_RANGE)
    { p with detune_range := p.detune_range.set_val_instantly ranged }
  | 3 => { p with transpose := p.transpose.set_val_instantly norm_val }
  | 4 => { p with norm_frame := p.norm_frame.set_val_instantly norm_val }
  | 5 => { p with random := p.random.set_val_instantly norm_val }
  | 6 => { p with level := p.level.set_val_instantly norm_val }
  | 7 => { p with stereo := p.stereo.set_val_instantly norm_val }
  | 8 => { p with norm_pan := p.norm_pan.set_val_instantly norm_val }
  | 9 =>
    let cast_voices := fun l => (u32_cast ((norm_val l).1 * (1598 / 100) + 1),
      u32_cast ((norm_val l).2 * (1598 / 100) + 1))
    { p with num_voices := cast_voices }
  | _ => p

/-- From `lib.rs` `WTOsc::set_all_params` parameter loop: apply the instant
parameter dispatch for every id in `0 .. NUM_PARAMS`. -/
def WTOscClusterParams.set_all_params (p : WTOscClusterParams)
    (vals : Nat → Nat → ℚ × ℚ) : WTOscClusterParams :=
  (List.range NUM_PARAMS).foldl (fun q id => q.set_param id (vals id)) p

/-- C10: `set_all_params` only ever invokes ids `0 ..= 8`; the dispatch
reaches the unison voice count only under id 9 and treats id 0 (and any
other unknown id) as a silent no-op, so a `set_all_params` call leaves the
per-lane `num_voices` vector unchanged. -/
theorem set_all_params_preserves_num_voices (p : WTOscClusterParams)
    (vals : Nat → Nat → ℚ × ℚ) (v : Nat → ℚ × ℚ) :
    (∀ pid, pid < NUM_PARAMS → (p.set_param pid v).num_voices = p.num_voices) ∧
    (p.set_all_params vals).num_voices = p.num_voices ∧
    p.set_param 0 v = p := by
  refine ⟨?_, rfl, rfl⟩
  intro pid hpid
  simp only [NUM_PARAMS] at hpid
  interval_cases pid <;> rfl

/-- Witness for C10 at a concrete cluster and id. -/
theorem set_all_params_preserves_num_voices_witness :
    ((5 : Nat) < NUM_PARAMS ∧
      (WTOscClusterParams.default.set_param 5 (fun _ => (1, 1))).num_voices =
        WTOscClusterParams.default.num_voices) ∧
    (WTOscClusterParams.default.set_all_params (fun _ _ => (1, 1))).num_voices =
      WTOscClusterParams.default.num_voices ∧
    WTOscClusterParams.default.set_param 0 (fun _ => (1, 1)) =
      WTOscClusterParams.default :=
  ⟨⟨by decide,
    (set_all_params_preserves_num_voices WTOscClusterParams.default
      (fun _ _ => (1, 1)) (fun _ => (1, 1))).1 5 (by decide)⟩,
    (set_all_params_preserves_num_voices WTOscClusterParams.default
      (fun _ _ => (1, 1)) (fun _ => (1, 1))).2.1,
    (set_all_params_preserves_num_voices WTOscClusterParams.default
      (fun _ _ => (1, 1)) (fun _ => (1, 1))).2.2⟩

/-- From `cluster.rs` `WTOscVoiceCluster`: the parameter block, one optional
voice per stereo lane, and the two derived mix-weight smoothers. -/
structure WTOscVoiceCluster where
  params : WTOscClusterParams
  voices : Nat → Option WTOscVoice
  normal_weights : LinearSmootherV
  flipped_weights : LinearSmootherV

/-- Default `WTOscVoiceCluster`. -/
def WTOscVoiceCluster.default : WTOscVoiceCluster :=
  ⟨.default, fun _ => none, .default, .default⟩

/-- From `cluster.rs` `WTOscVoiceCluster::move_state` (body; the two
`assert!(lane < STEREO_VOICES_PER_VECTOR)` preconditions appear as the
hypotheses of the theorem below, and `lib.rs` re-checks them): migrate the
param block lanes, both weight smoothers' `value`/`increment` lanes, and the
whole voice slot from lane `i` of `self` to lane `j` of `other`. -/
def WTOscVoiceCluster.move_state (self : WTOscVoiceCluster) (i : Nat)
    (other : WTOscVoiceCluster) (j : Nat) : WTOscVoiceCluster where
  params := self.params.move_state i other.params j
  normal_weights := ⟨set_sample self.normal_weights.value i other.normal_weights.value j,
    set_sample self.normal_weights.increment i other.normal_weights.increment j⟩
  flipped_weights := ⟨set_sample self.flipped_weights.value i other.flipped_weights.value j,
    set_sample self.flipped_weights.increment i other.flipped_weights.increment j⟩
  voices := set_sample self.voices i other.voices j

/-- From `lib.rs` `WTOsc::move_state` body, acting on the cluster pool: replace
cluster `b` by the result of migrating lane `i` of cluster `a` into lane `j`
of cluster `b`.  (When `a = b` the `Cell` writes of the source all target
lane `j` and every read targets lane `i` of the original state, which is
exactly this update applied to the single cluster.) -/
def move_state_clusters (clusters : Nat → WTOscVoiceCluster) (a i b j : Nat) :
    Nat → WTOscVoiceCluster :=
  Function.update clusters b ((clusters a).move_state i (clusters b) j)

/-- Full per-lane state of one stereo lane of a cluster, as `move_state`
migrates it:
the `(value, increment)` pairs of the eight parameter smoothers, the base
phase delta, the unison voice count, the two mix-weight smoother lanes, and
the voice slot. -/
def WTOscVoiceCluster.laneState (c : WTOscVoiceCluster) (l : Nat) :=
  ((c.params.detune.value l, c.params.detune.increment l),
   (c.params.detune_range.value l, c.params.detune_range.increment l),
   (c.params.transpose.value l, c.params.transpose.increment l),
   (c.params.norm_frame.value l, c.params.norm_frame.increment l),
   (c.params.random.value l, c.params.random.increment l),
   (c.params.level.value l, c.params.level.increment l),
   (c.params.stereo.value l, c.params.stereo.increment l),
   (c.params.norm_pan.value l, c.params.norm_pan.increment l),
   c.params.phase_delta l, c.params.num_voices l,
   (c.normal_weights.value l, c.normal_weights.increment l),
   (c.flipped_weights.value l, c.flipped_weights.increment l),
   c.voices l)

/-- C3: `move_state(A, i, B, j)` copies lane `i`'s full per-lane state (all
eight parameter smoothers' value/increment pairs, base phase delta, unison
voice count, both mix-weight smoother lanes, and the voice slot) into lane
`j` of cluster `B`; every other lane of `B` is unchanged, and every cluster
other than `B` — in particular all of `A` when `A ≠ B` — is untouched. -/
theorem move_state_lane_isolation (clusters : Nat → WTOscVoiceCluster) (a i b j : Nat)
    (hi : i < STEREO_VOICES_PER_VECTOR) (hj : j < STEREO_VOICES_PER_VECTOR) :
    (move_state_clusters clusters a i b j b).laneState j = (clusters a).laneState i ∧
    (∀ k, k ≠ j →
      (move_state_clusters clusters a i b j b).laneState k = (clusters b).laneState k) ∧
    (∀ c, c ≠ b → move_state_clusters clusters a i b j c = clusters c) := by
  refine ⟨?_, ?_, ?_⟩
  · simp [move_state_clusters, Function.update_same, WTOscVoiceCluster.laneState,
      WTOscVoiceCluster.move_state, WTOscClusterParams.move_state, set_sample]
  · intro k hk
    simp [move_state_clusters, Function.update_same, WTOscVoiceCluster.laneState,
      WTOscVoiceCluster.move_state, WTOscClusterParams.move_state, set_sample,
      Function.update_noteq hk]
  · intro c hc
    simp [move_state_clusters, Function.update_noteq hc]

/-- Witness for C3: migrate lane 0 of cluster 0 into lane 1 of cluster 1 in
a pool of default clusters. -/
theorem move_state_lane_isolation_witness :
    (0 : Nat) < STEREO_VOICES_PER_VECTOR ∧ (1 : Nat) < STEREO_VOICES_PER_VECTOR ∧
    ((move_state_clusters (fun _ => WTOscVoiceCluster.default) 0 0 1 1 1).laneState 1 =
        ((fun _ => WTOscVoiceCluster.default) 0).laneState 0 ∧
      (∀ k, k ≠ 1 →
        (move_state_clusters (fun _ => WTOscVoiceCluster.default) 0 0 1 1 1).laneState k =
          ((fun _ => WTOscVoiceCluster.default) 1).laneState k) ∧
      (∀ c, c ≠ 1 →
        move_state_clusters (fun _ => WTOscVoiceCluster.default) 0 0 1 1 c =
          (fun _ => WTOscVoiceCluster.default) c)) :=
  ⟨by decide, by decide,
    move_state_lane_isolation (fun _ => WTOscVoiceCluster.default) 0 0 1 1
      (by decide) (by decide)⟩

/-- From `lib.rs` `WTOsc::move_state`: the lane-bounds check
`(from_voice < STEREO_VOICES_PER_VECTOR && to_voice < STEREO_VOICES_PER_VECTOR)
.then(|| ...).expect("out of bounds voice indices")`, with the panic
modelled as `Except.error`.  On success the cluster pool is migrated (the
parallel normalized-params array of this revision lives outside `src/` and
mirrors the same per-lane copy). -/
def WTOsc.move_state (clusters : Nat → WTOscVoiceCluster)
    (from_cluster from_voice to_cluster to_voice : Nat) :
    Except String (Nat → WTOscVoiceCluster) :=
  if from_voice < STEREO_VOICES_PER_VECTOR ∧ to_voice < STEREO_VOICES_PER_VECTOR then
    Except.ok (move_state_clusters clusters from_cluster from_voice to_cluster to_voice)
  else
    Except.error "out of bounds voice indices"

/-- C9: `move_state((from_cluster, from_voice), (to_cluster, to_voice))`
fails with the out-of-range error — performing no state copy — exactly when
`from_voice` or `to_voice` reaches `STEREO_VOICES_PER_VECTOR`, and performs
the lane migration when both lane indices are in range. -/
theorem move_state_checks_lane_bounds (clusters : Nat → WTOscVoiceCluster)
    (from_cluster from_voice to_cluster to_voice : Nat) :
    (WTOsc.move_state clusters from_cluster from_voice to_cluster to_voice =
        Except.error "out of bounds voice indices" ↔
      STEREO_VOICES_PER_VECTOR ≤ from_voice ∨ STEREO_VOICES_PER_VECTOR ≤ to_voice) ∧
    (from_voice < STEREO_VOICES_PER_VECTOR → to_voice < STEREO_VOICES_PER_VECTOR →
      WTOsc.move_state clusters from_cluster from_voice to_cluster to_voice =
        Except.ok
          (move_state_clusters clusters from_cluster from_voice to_cluster to_voice)) := by
  by_cases h : from_voice < STEREO_VOICES_PER_VECTOR ∧ to_voice < STEREO_VOICES_PER_VECTOR
  · refine ⟨?_, fun _ _ => by simp [WTOsc.move_state, h]⟩
    simp only [WTOsc.move_state, if_pos h]
    constructor
    · intro he; exact absurd he (by simp)
    · intro hor; omega
  · refine ⟨?_, fun h1 h2 => absurd ⟨h1, h2⟩ h⟩
    simp only [WTOsc.move_state, if_neg h]
    simp only [true_iff]
    omega

/-- Witness for C9: lane 7 is rejected at width 8 (4 stereo lanes), lanes
0 → 1 succeed. -/
theorem move_state_checks_lane_bounds_witness :
    WTOsc.move_state (fun _ => WTOscVoiceCluster.default) 0 7 1 0 =
      Except.error "out of bounds voice indices" ∧
    WTOsc.move_state (fun _ => WTOscVoiceCluster.default) 0 0 1 1 =
      Except.ok (move_state_clusters (fun _ => WTOscVoiceCluster.default) 0 0 1 1) :=
  ⟨(move_state_checks_lane_bounds (fun _ => WTOscVoiceCluster.default) 0 7 1 0).1.mpr
      (by decide),
    (move_state_checks_lane_bounds (fun _ => WTOscVoiceCluster.default) 0 0 1 1).2
      (by decide) (by decide)⟩
